import Mathlib

/-!
Verification of the IAT experiment module (src/iat/models.py).

The module expands a static block/stimulus configuration into randomized
per-participant trial records (Subsession.creating_session) and projects the
stored records into a tabular export (custom_export).  This file is a shallow
embedding of those routines:

* Python dicts of the static configuration become association lists;
* the in-place random.shuffle becomes an explicit shuffle parameter, about
  which theorems assume only that it permutes its input;
* the raised exceptions (KeyError from dict lookup, IndexError from list
  indexing, ValueError from the count check) become an Except error value:
  a .error result models the exception propagating out of creating_session
  before Trial.objects.bulk_create is reached, so nothing is persisted;
* an .ok result models the list passed to bulk_create, i.e. the persisted
  records.

Note on the source data: line 41 of models.py contains a stray caret between
two list entries (glorioso and risa), a literal syntax anomaly.  Following the
evident intent of the list (and the specification, which records this as a
data-entry defect), STIMULI below is transcribed with the caret removed, so
the positivas list keeps both neighbouring words.
-/

/-- A participant in one round: oTree player objects carry their round number
and link to session/participant codes (used only by the export). -/
structure Player where
  id : Nat
  round_number : Nat
  session_code : String
  participant_code : String
deriving Repr, DecidableEq

/-- One candidate stimulus tuple, exactly as built on line 162 of models.py:
(side, stim_class, stim_lvl, stimulus word). -/
abbrev Stim := String × String × String × String

/-- The type of the STIMULI configuration dict: category name to level name to
word list, as an association list. -/
abbrev StimTable := List (String × List (String × List String))

/-- One entry of BLOCKS (models.py lines 61-132). -/
structure Block where
  label : String
  n : Nat
  izquierda : List (String × String)
  derecha : List (String × String)
  is_practice : Bool
  notice : Option String
deriving Repr, DecidableEq

/-- The Trial custom data model (models.py lines 195-212).  The three
response fields are nullable (unset at creation time), modelled as Option. -/
structure Trial where
  block : Nat
  trial : Nat
  stimulus : String
  stimulus_class : String
  stimulus_level : String
  response_key : Option String
  response_correct : Option Bool
  response_time_ms : Option Int
  player : Player
deriving Repr, DecidableEq

/-- The exceptions creating_session can raise: KeyError from a STIMULI dict
lookup, IndexError from the BLOCKS list index, and the ValueError of the
count check on lines 167-169, which carries the actual and the expected
count (the two numbers interpolated into its message). -/
inductive GenError where
  | keyError
  | indexError
  | valueError (actual : Nat) (expected : Nat)
deriving Repr, DecidableEq

/-- Python dict lookup on an association list: the value under the first
matching key, none when the key is absent (a raised KeyError). -/
def lookupKey {α : Type} (d : List (String × α)) (k : String) : Option α :=
  match d with
  | [] => none
  | (k2, v) :: rest => if k2 = k then some v else lookupKey rest k

/-- The two-level dict access STIMULI[stim_class][stim_lvl] of line 160. -/
def stimWords (S : StimTable) (stim_class stim_lvl : String) :
    Option (List String) :=
  match lookupKey S stim_class with
  | none => none
  | some sub => lookupKey sub stim_lvl

/-- The STIMULI configuration (models.py lines 39-48), transcribed with the
stray caret of line 41 removed (see the header note). -/
def STIMULI : StimTable :=
  [("atributos",
     [("positivas",
        ["alegría", "amor", "paz", "maravilloso", "placer", "glorioso",
         "risa", "feliz"]),
      ("negativas",
        ["agonía", "terrible", "horrible", "desagradable", "malvado",
         "malísimo", "fallo", "dolor"])]),
   ("conceptos",
     [("español",
        ["español", "murciano", "canario", "madrileño", "andaluz",
         "gallego"]),
      ("inmigrante",
        ["inmigrante", "extranjero", "árabe", "africano", "asiático",
         "latino"])])]

/-- The BLOCKS configuration (models.py lines 61-132). -/
def BLOCKS : List Block :=
  [{ label := "Practice 1", n := 10,
     izquierda := [("conceptos", "español")],
     derecha := [("conceptos", "inmigrante")],
     is_practice := true, notice := none },
   { label := "Practice 2", n := 10,
     izquierda := [("atributos", "negativas")],
     derecha := [("atributos", "positivas")],
     is_practice := true, notice := none },
   { label := "Test 1", n := 20,
     izquierda := [("atributos", "negativas"), ("conceptos", "español")],
     derecha := [("atributos", "positivas"), ("conceptos", "inmigrante")],
     is_practice := false, notice := none },
   { label := "Test 2", n := 20,
     izquierda := [("atributos", "negativas"), ("conceptos", "español")],
     derecha := [("atributos", "positivas"), ("conceptos", "inmigrante")],
     is_practice := false, notice := none },
   { label := "Practice 3 (reversed)", n := 10,
     izquierda := [("conceptos", "inmigrante")],
     derecha := [("conceptos", "español")],
     is_practice := true,
     notice := some "CUIDADO, las categorías se han cambiado de sitio!" },
   { label := "Test 3", n := 20,
     izquierda := [("atributos", "negativas"), ("conceptos", "inmigrante")],
     derecha := [("atributos", "positivas"), ("conceptos", "español")],
     is_practice := false, notice := none },
   { label := "Test 4", n := 20,
     izquierda := [("atributos", "negativas"), ("conceptos", "inmigrante")],
     derecha := [("atributos", "positivas"), ("conceptos", "español")],
     is_practice := false, notice := none }]

/-- Constants.num_rounds = len(BLOCKS) (models.py line 138). -/
def Constants.num_rounds : Nat := BLOCKS.length

/-- The inner loop of lines 158-162 for one side: for every
(stim_class, stim_lvl) selector of the side, in order, look the word list up
in STIMULI and extend the stimuli list with one (side, class, level, word)
tuple per word.  A failed lookup is the raised KeyError. -/
def sideStimuli (S : StimTable) (side : String) :
    List (String × String) → Except GenError (List Stim)
  | [] => .ok []
  | (stim_class, stim_lvl) :: rest =>
    match stimWords S stim_class stim_lvl with
    | none => .error .keyError
    | some stim_vals =>
      match sideStimuli S side rest with
      | .error e => .error e
      | .ok restStims =>
        .ok ((stim_vals.map fun w => (side, stim_class, stim_lvl, w))
              ++ restStims)

/-- Lines 157-162: the candidate stimulus list of one block, izquierda side
first, then derecha, concatenated in configuration order. -/
def blockStimuli (S : StimTable) (bd : Block) : Except GenError (List Stim) :=
  match sideStimuli S "izquierda" bd.izquierda with
  | .error e => .error e
  | .ok left =>
    match sideStimuli S "derecha" bd.derecha with
    | .error e => .error e
    | .ok right => .ok (left ++ right)

/-- Lines 172-182: enumerate the (shuffled) stimulus list and build one Trial
per element, with trial = 0-based position + 1, the word/class/level copied
from the tuple, block = the round number, the player reference set, and the
three response fields unset. -/
def makeTrials (round_number : Nat) (p : Player) (stimuli : List Stim) :
    List Trial :=
  stimuli.enum.map fun x =>
    ⟨round_number, x.1 + 1, x.2.2.2.2, x.2.2.1, x.2.2.2.1,
     none, none, none, p⟩

/-- The body of the per-player loop of creating_session (lines 153-182):
look the block definition up by round number (IndexError when out of range),
build the candidate stimuli, shuffle them (the shuffle argument models
random.shuffle and is applied to this player's list), run the count check of
lines 167-169, and build the Trial objects. -/
def playerTrialsFor (S : StimTable) (B : List Block)
    (shuffle : Player → List Stim → List Stim) (p : Player) :
    Except GenError (List Trial) :=
  match B.get? (p.round_number - 1) with
  | none => .error .indexError
  | some block_def =>
    match blockStimuli S block_def with
    | .error e => .error e
    | .ok stimuli0 =>
      let stimuli := shuffle p stimuli0
      if stimuli.length ≠ block_def.n then
        .error (.valueError stimuli.length block_def.n)
      else
        .ok (makeTrials p.round_number p stimuli)

/-- Subsession.creating_session (lines 145-184) over the list of players of
the session: the per-player trial lists are concatenated in player order into
the one list handed to Trial.objects.bulk_create.  An exception from any
player propagates, so on .error the bulk create is never reached and no
Trial is persisted; .ok ts models bulk_create(ts). -/
def creating_session (S : StimTable) (B : List Block)
    (shuffle : Player → List Stim → List Stim) :
    List Player → Except GenError (List Trial)
  | [] => .ok []
  | p :: ps =>
    match playerTrialsFor S B shuffle p with
    | .error e => .error e
    | .ok ptrials =>
      match creating_session S B shuffle ps with
      | .error e => .error e
      | .ok rest => .ok (ptrials ++ rest)

/-!
## Export routine

custom_export (models.py lines 231-240) yields a header row and then, per
stored Trial, a row of the two code columns followed by the eight trial
fields run through sanitize_for_csv.  Cells are strings, ints, bools or null
(Python None for an unset nullable field).
-/

/-- One cell of an exported row. -/
inductive CellValue where
  | str (s : String)
  | int (i : Int)
  | bool (b : Bool)
  | null
deriving Repr, DecidableEq

/-- getattr on a nullable StringField: None when unset. -/
def optStrVal : Option String → CellValue
  | none => .null
  | some s => .str s

/-- getattr on a nullable BooleanField: None when unset. -/
def optBoolVal : Option Bool → CellValue
  | none => .null
  | some b => .bool b

/-- getattr on a nullable IntegerField: None when unset. -/
def optIntVal : Option Int → CellValue
  | none => .null
  | some i => .int i

/-- fields_to_export (models.py lines 235-236). -/
def fields_to_export : List String :=
  ["block", "trial", "stimulus", "stimulus_class", "stimulus_level",
   "response_key", "response_correct", "response_time_ms"]

/-- getattr(trial, f) for the field names used by custom_export. -/
def getattrTrial (t : Trial) (f : String) : CellValue :=
  if f = "block" then .int (t.block : Int)
  else if f = "trial" then .int (t.trial : Int)
  else if f = "stimulus" then .str t.stimulus
  else if f = "stimulus_class" then .str t.stimulus_class
  else if f = "stimulus_level" then .str t.stimulus_level
  else if f = "response_key" then optStrVal t.response_key
  else if f = "response_correct" then optBoolVal t.response_correct
  else if f = "response_time_ms" then optIntVal t.response_time_ms
  else .null

/-- The raw (pre-sanitization) trial field values of one record, in
fields_to_export order. -/
def trialFieldValues (t : Trial) : List CellValue :=
  fields_to_export.map (getattrTrial t)

/-- The characters a spreadsheet program would interpret as starting a
formula when leading a cell. -/
def formulaChars : List Char := ['=', '+', '-', '@']

/-- The single-quote character prepended to escape a formula-leading cell. -/
def escMark : Char := Char.ofNat 39

/-- Line-ending normalization on the character list of a cell: CRLF and a
lone CR both become LF. -/
def normalizeNewlines : List Char → List Char
  | [] => []
  | [c] => if c = '\r' then ['\n'] else [c]
  | c :: c2 :: rest =>
    if c = '\r' then
      if c2 = '\n' then '\n' :: normalizeNewlines rest
      else '\n' :: normalizeNewlines (c2 :: rest)
    else c :: normalizeNewlines (c2 :: rest)

/-- Modelled from the spec: the string case of sanitize_for_csv, which is
imported from the hosting platform (otree.export) and is not part of src/.
Per the spec it escapes leading characters that spreadsheet programs would
interpret as formulas and normalizes line endings. -/
def sanitize_string (s : String) : String :=
  match normalizeNewlines s.data with
  | [] => String.mk []
  | c :: rest =>
    if formulaChars.contains c then String.mk (escMark :: c :: rest)
    else String.mk (c :: rest)

/-- Modelled from the spec: sanitize_for_csv as applied to one cell; only
string cells carry formula characters or line endings, so other cells pass
through unchanged. -/
def sanitize_for_csv : CellValue → CellValue
  | .str s => .str (sanitize_string s)
  | v => v

/-- Plain text in the sense of the spec: no leading formula character and no
carriage return to normalize. -/
def plainString (s : String) : Bool :=
  (match s.data with
   | [] => true
   | c :: _ => !(formulaChars.contains c))
  && s.data.all fun c => c != '\r'

/-- One data row of custom_export (lines 239-240): the player's session code
and participant code, unmodified, then the sanitized trial fields. -/
def exportRow (t : Trial) : List CellValue :=
  [.str t.player.session_code, .str t.player.participant_code]
    ++ fields_to_export.map fun f => sanitize_for_csv (getattrTrial t f)

/-- custom_export (lines 231-240) over the stored Trial table: the header
row of line 237 followed by one row per stored record, in storage iteration
order. -/
def custom_export (trials : List Trial) : List (List CellValue) :=
  (["session", "participant_code"] ++ fields_to_export).map CellValue.str
    :: trials.map exportRow

/-- The database state custom_export reads: the Trial table. -/
structure Database where
  trials : List Trial
deriving Repr, DecidableEq

/-- custom_export as a state-passing computation over the database: the
function body contains no update to any record, so the state is returned
unchanged alongside the produced rows. -/
def custom_export_run (db : Database) : List (List CellValue) × Database :=
  (custom_export db.trials, db)

/-!
## Concrete fixtures

A configuration-consistent variant of the first block (its candidate count,
12, declared as n) lets the success path of the generator be exercised
concretely; the identity shuffle is one permissible permutation.
-/

/-- The first block with n corrected to the actual candidate count 12. -/
def testBlock : Block :=
  { label := "Practice 1", n := 12,
    izquierda := [("conceptos", "español")],
    derecha := [("conceptos", "inmigrante")],
    is_practice := true, notice := none }

/-- A round-1 player. -/
def testPlayer : Player := ⟨1, 1, "abc123", "p1"⟩

/-- The candidate stimuli of testBlock. -/
def testCand : List Stim :=
  (blockStimuli STIMULI testBlock).toOption.getD []

/-- The trials generated for testPlayer under testBlock with the identity
shuffle. -/
def testTrials : List Trial :=
  (playerTrialsFor STIMULI [testBlock] (fun _ l => l) testPlayer).toOption.getD []

/-- The whole-session trial batch for a one-player session under testBlock
with the identity shuffle. -/
def testSession : List Trial :=
  (creating_session STIMULI [testBlock] (fun _ l => l)
    [testPlayer]).toOption.getD []

/-- A player whose session code starts with a formula character. -/
def evilPlayer : Player := ⟨1, 1, "=2+5", "pc1"⟩

/-- A fully answered trial owned by evilPlayer, matching the export scenario
of the spec. -/
def evilTrial : Trial :=
  ⟨1, 1, "alegría", "atributos", "positivas", some "E", some true,
   some 812, evilPlayer⟩

/-!
## Helper lemmas
-/

theorem enum_map_comp_snd {α β : Type} (l : List α) (h : α → β) :
    l.enum.map (fun x => h x.2) = l.map h := by
  rw [List.ext_get?_iff]
  intro n
  rw [List.get?_eq_getElem?, List.get?_eq_getElem?,
    List.getElem?_map, List.getElem?_map, List.getElem?_enum]
  cases l[n]? <;> rfl

theorem makeTrials_getElem? (r : Nat) (p : Player) (l : List Stim) (i : Nat) :
    (makeTrials r p l)[i]?
      = l[i]?.map fun sd =>
          (⟨r, i + 1, sd.2.2.2, sd.2.1, sd.2.2.1, none, none, none, p⟩ : Trial) := by
  rw [makeTrials, List.getElem?_map, List.getElem?_enum]
  cases l[i]? <;> rfl

theorem makeTrials_map_stim (r : Nat) (p : Player) (l : List Stim) :
    (makeTrials r p l).map (fun t => (t.stimulus_class, t.stimulus_level, t.stimulus))
      = l.map fun sd => (sd.2.1, sd.2.2.1, sd.2.2.2) := by
  rw [makeTrials, List.map_map]
  exact enum_map_comp_snd l fun sd => (sd.2.1, sd.2.2.1, sd.2.2.2)

theorem makeTrials_map_word (r : Nat) (p : Player) (l : List Stim) :
    (makeTrials r p l).map Trial.stimulus = l.map fun sd => sd.2.2.2 := by
  rw [makeTrials, List.map_map]
  exact enum_map_comp_snd l fun sd => sd.2.2.2

theorem makeTrials_mem (r : Nat) (p : Player) (l : List Stim) (t : Trial)
    (ht : t ∈ makeTrials r p l) :
    ∃ sd ∈ l, t.stimulus_class = sd.2.1 ∧ t.stimulus_level = sd.2.2.1
      ∧ t.stimulus = sd.2.2.2 ∧ t.player = p ∧ t.block = r := by
  rw [makeTrials, List.mem_map] at ht
  obtain ⟨x, hx, rfl⟩ := ht
  rw [List.mem_enum_iff_getElem?, ← List.get?_eq_getElem?] at hx
  exact ⟨x.2, List.get?_mem hx, rfl, rfl, rfl, rfl, rfl⟩

theorem playerTrialsFor_cases (S : StimTable) (B : List Block)
    (shuffle : Player → List Stim → List Stim)
    (hshuf : ∀ q l, (shuffle q l).Perm l)
    (p : Player) (bd : Block) (cand : List Stim)
    (hbd : B.get? (p.round_number - 1) = some bd)
    (hcand : blockStimuli S bd = .ok cand) :
    (cand.length = bd.n
      ∧ playerTrialsFor S B shuffle p
          = .ok (makeTrials p.round_number p (shuffle p cand)))
    ∨ (cand.length ≠ bd.n
      ∧ playerTrialsFor S B shuffle p
          = .error (.valueError cand.length bd.n)) := by
  have hlen : (shuffle p cand).length = cand.length :=
    (hshuf p cand).length_eq
  by_cases h : cand.length = bd.n
  · left
    refine ⟨h, ?_⟩
    simp only [playerTrialsFor, hbd, hcand, hlen, h, ne_eq, not_true_eq_false,
      if_false, ite_false]
  · right
    refine ⟨h, ?_⟩
    simp only [playerTrialsFor, hbd, hcand, hlen, ne_eq]
    rw [if_pos h]

theorem playerTrialsFor_ok_elim (S : StimTable) (B : List Block)
    (shuffle : Player → List Stim → List Stim) (p : Player) (ts : List Trial)
    (hok : playerTrialsFor S B shuffle p = .ok ts) :
    ∃ bd cand, B.get? (p.round_number - 1) = some bd
      ∧ blockStimuli S bd = .ok cand
      ∧ (shuffle p cand).length = bd.n
      ∧ ts = makeTrials p.round_number p (shuffle p cand) := by
  cases hget : B.get? (p.round_number - 1) with
  | none =>
    rw [playerTrialsFor, hget] at hok
    exact absurd hok (by simp)
  | some bd =>
    cases hcand : blockStimuli S bd with
    | error e =>
      simp only [playerTrialsFor, hget, hcand] at hok
      exact absurd hok (by simp)
    | ok cand =>
      simp only [playerTrialsFor, hget, hcand, ne_eq] at hok
      by_cases hlen : (shuffle p cand).length = bd.n
      · rw [if_neg (by simpa using hlen)] at hok
        refine ⟨bd, cand, rfl, hcand, hlen, ?_⟩
        simpa using hok.symm
      · rw [if_pos hlen] at hok
        exact absurd hok (by simp)

theorem sideStimuli_mem (S : StimTable) (side : String)
    (sels : List (String × String)) (cand : List Stim)
    (h : sideStimuli S side sels = .ok cand) :
    ∀ sd ∈ cand, (sd.2.1, sd.2.2.1) ∈ sels
      ∧ ∃ ws, stimWords S sd.2.1 sd.2.2.1 = some ws ∧ sd.2.2.2 ∈ ws := by
  induction sels generalizing cand with
  | nil =>
    simp only [sideStimuli] at h
    obtain rfl : ([] : List Stim) = cand := by simpa using h
    intro sd hsd
    exact absurd hsd (by simp)
  | cons sel rest ih =>
    obtain ⟨stim_class, stim_lvl⟩ := sel
    simp only [sideStimuli] at h
    cases hw : stimWords S stim_class stim_lvl with
    | none => rw [hw] at h; exact absurd h (by simp)
    | some stim_vals =>
      rw [hw] at h
      cases hr : sideStimuli S side rest with
      | error e => rw [hr] at h; exact absurd h (by simp)
      | ok restStims =>
        rw [hr] at h
        obtain rfl :
            (stim_vals.map fun w => (side, stim_class, stim_lvl, w))
              ++ restStims = cand := by simpa using h
        intro sd hsd
        rcases List.mem_append.mp hsd with hleft | hright
        · obtain ⟨w, hwmem, rfl⟩ := List.mem_map.mp hleft
          exact ⟨List.mem_cons_self _ _, stim_vals, hw, hwmem⟩
        · obtain ⟨hsel, hws⟩ := ih restStims hr sd hright
          exact ⟨List.mem_cons_of_mem _ hsel, hws⟩

theorem blockStimuli_mem (S : StimTable) (bd : Block) (cand : List Stim)
    (h : blockStimuli S bd = .ok cand) :
    ∀ sd ∈ cand, (sd.2.1, sd.2.2.1) ∈ bd.izquierda ++ bd.derecha
      ∧ ∃ ws, stimWords S sd.2.1 sd.2.2.1 = some ws ∧ sd.2.2.2 ∈ ws := by
  rw [blockStimuli] at h
  cases hl : sideStimuli S "izquierda" bd.izquierda with
  | error e => rw [hl] at h; exact absurd h (by simp)
  | ok left =>
    rw [hl] at h
    cases hr : sideStimuli S "derecha" bd.derecha with
    | error e => rw [hr] at h; exact absurd h (by simp)
    | ok right =>
      rw [hr] at h
      obtain rfl : left ++ right = cand := by simpa using h
      intro sd hsd
      rcases List.mem_append.mp hsd with hmem | hmem
      · obtain ⟨hsel, hws⟩ := sideStimuli_mem S _ _ _ hl sd hmem
        exact ⟨List.mem_append.mpr (Or.inl hsel), hws⟩
      · obtain ⟨hsel, hws⟩ := sideStimuli_mem S _ _ _ hr sd hmem
        exact ⟨List.mem_append.mpr (Or.inr hsel), hws⟩

theorem creating_session_ok_cons (S : StimTable) (B : List Block)
    (shuffle : Player → List Stim → List Stim) (p : Player) (ps : List Player)
    (ts : List Trial)
    (h : creating_session S B shuffle (p :: ps) = .ok ts) :
    ∃ pt rest, playerTrialsFor S B shuffle p = .ok pt
      ∧ creating_session S B shuffle ps = .ok rest ∧ ts = pt ++ rest := by
  simp only [creating_session] at h
  cases hp : playerTrialsFor S B shuffle p with
  | error e => rw [hp] at h; exact absurd h (by simp)
  | ok pt =>
    rw [hp] at h
    cases hrest : creating_session S B shuffle ps with
    | error e => rw [hrest] at h; exact absurd h (by simp)
    | ok rest =>
      rw [hrest] at h
      exact ⟨pt, rest, rfl, rfl, by simpa using h.symm⟩

theorem creating_session_cons_error_elim (S : StimTable) (B : List Block)
    (shuffle : Player → List Stim → List Stim) (p : Player) (ps : List Player)
    (e : GenError)
    (h : creating_session S B shuffle (p :: ps) = .error e) :
    playerTrialsFor S B shuffle p = .error e
      ∨ (∃ pt, playerTrialsFor S B shuffle p = .ok pt
          ∧ creating_session S B shuffle ps = .error e) := by
  simp only [creating_session] at h
  cases hp : playerTrialsFor S B shuffle p with
  | error e2 =>
    rw [hp] at h
    obtain rfl : e2 = e := by simpa using h
    exact Or.inl rfl
  | ok pt =>
    rw [hp] at h
    cases hrest : creating_session S B shuffle ps with
    | error e2 =>
      rw [hrest] at h
      obtain rfl : e2 = e := by simpa using h
      exact Or.inr ⟨pt, rfl, rfl⟩
    | ok rest =>
      rw [hrest] at h
      exact absurd h (by simp)

theorem creating_session_cons_error_intro (S : StimTable) (B : List Block)
    (shuffle : Player → List Stim → List Stim) (p : Player) (ps : List Player)
    (h : (∃ e, playerTrialsFor S B shuffle p = .error e)
        ∨ (∃ e, creating_session S B shuffle ps = .error e)) :
    ∃ e, creating_session S B shuffle (p :: ps) = .error e := by
  simp only [creating_session]
  cases hp : playerTrialsFor S B shuffle p with
  | error e2 => exact ⟨e2, rfl⟩
  | ok pt =>
    rcases h with ⟨e, he⟩ | ⟨e, he⟩
    · rw [hp] at he; exact absurd he (by simp)
    · rw [he]; exact ⟨e, rfl⟩

theorem playerTrialsFor_error_elim (S : StimTable) (B : List Block)
    (shuffle : Player → List Stim → List Stim) (p : Player) (e : GenError)
    (bd : Block) (cand : List Stim)
    (hbd : B.get? (p.round_number - 1) = some bd)
    (hcand : blockStimuli S bd = .ok cand)
    (herr : playerTrialsFor S B shuffle p = .error e) :
    e = .valueError (shuffle p cand).length bd.n
      ∧ (shuffle p cand).length ≠ bd.n := by
  simp only [playerTrialsFor, hbd, hcand, ne_eq] at herr
  by_cases hlen : (shuffle p cand).length = bd.n
  · rw [if_neg (by simpa using hlen)] at herr
    exact absurd herr (by simp)
  · rw [if_pos hlen] at herr
    exact ⟨by simpa using herr.symm, hlen⟩

theorem creating_session_error_offender (S : StimTable) (B : List Block)
    (shuffle : Player → List Stim → List Stim)
    (hshuf : ∀ q l, (shuffle q l).Perm l)
    (players : List Player)
    (hwf : ∀ p ∈ players, ∃ bd cand, B.get? (p.round_number - 1) = some bd
        ∧ blockStimuli S bd = .ok cand)
    (e : GenError)
    (herr : creating_session S B shuffle players = .error e) :
    ∃ p ∈ players, ∃ bd cand, B.get? (p.round_number - 1) = some bd
      ∧ blockStimuli S bd = .ok cand ∧ cand.length ≠ bd.n
      ∧ e = .valueError cand.length bd.n := by
  induction players with
  | nil => exact absurd herr (by simp [creating_session])
  | cons p ps ih =>
    rcases creating_session_cons_error_elim S B shuffle p ps e herr with
      hp | ⟨pt, hok, htl⟩
    · obtain ⟨bd, cand, hbd, hcand⟩ := hwf p (List.mem_cons_self p ps)
      obtain ⟨he, hne⟩ := playerTrialsFor_error_elim S B shuffle p e bd cand
        hbd hcand hp
      have hlen : (shuffle p cand).length = cand.length :=
        (hshuf p cand).length_eq
      rw [hlen] at he hne
      exact ⟨p, List.mem_cons_self p ps, bd, cand, hbd, hcand, hne, he⟩
    · obtain ⟨q, hq, bd, cand, hbd, hcand, hne, he⟩ :=
        ih (fun q hq => hwf q (List.mem_cons_of_mem p hq)) htl
      exact ⟨q, List.mem_cons_of_mem p hq, bd, cand, hbd, hcand, hne, he⟩

theorem creating_session_offender_error (S : StimTable) (B : List Block)
    (shuffle : Player → List Stim → List Stim)
    (hshuf : ∀ q l, (shuffle q l).Perm l)
    (players : List Player)
    (hoff : ∃ p ∈ players, ∃ bd cand, B.get? (p.round_number - 1) = some bd
        ∧ blockStimuli S bd = .ok cand ∧ cand.length ≠ bd.n) :
    ∃ e, creating_session S B shuffle players = .error e := by
  induction players with
  | nil =>
    obtain ⟨p, hp, -⟩ := hoff
    exact absurd hp (by simp)
  | cons p ps ih =>
    obtain ⟨q, hq, bd, cand, hbd, hcand, hne⟩ := hoff
    rcases List.mem_cons.mp hq with rfl | hqps
    · refine creating_session_cons_error_intro S B shuffle q ps (Or.inl ?_)
      rcases playerTrialsFor_cases S B shuffle hshuf q bd cand hbd hcand with
        ⟨heq, -⟩ | ⟨-, herr⟩
      · exact absurd heq hne
      · exact ⟨.valueError cand.length bd.n, herr⟩
    · exact creating_session_cons_error_intro S B shuffle p ps
        (Or.inr (ih ⟨q, hqps, bd, cand, hbd, hcand, hne⟩))

theorem blocks_all_wf :
    ∀ bd ∈ BLOCKS, (blockStimuli STIMULI bd).toOption.isSome = true := by
  decide

theorem blocks_lookup_wf (r : Nat) (h1 : 1 ≤ r) (h2 : r ≤ Constants.num_rounds) :
    ∃ bd cand, BLOCKS.get? (r - 1) = some bd
      ∧ blockStimuli STIMULI bd = .ok cand := by
  have hlen : BLOCKS.length = 7 := rfl
  have hnum : Constants.num_rounds = 7 := rfl
  have hlt : r - 1 < BLOCKS.length := by omega
  refine ⟨BLOCKS.get ⟨r - 1, hlt⟩, ?_⟩
  have hmem : BLOCKS.get ⟨r - 1, hlt⟩ ∈ BLOCKS := List.get_mem BLOCKS _ hlt
  have hsome := blocks_all_wf _ hmem
  cases hc : blockStimuli STIMULI (BLOCKS.get ⟨r - 1, hlt⟩) with
  | error e => rw [hc] at hsome; exact absurd hsome (by simp [Except.toOption])
  | ok cand => exact ⟨cand, List.get?_eq_get hlt, rfl⟩

theorem normalizeNewlines_id (l : List Char)
    (h : ∀ c ∈ l, c ≠ '\r') : normalizeNewlines l = l := by
  induction l with
  | nil => rfl
  | cons c rest ih =>
    have hc : c ≠ '\r' := h c (List.mem_cons_self c rest)
    have hrest : ∀ c2 ∈ rest, c2 ≠ '\r' :=
      fun c2 hc2 => h c2 (List.mem_cons_of_mem c hc2)
    cases rest with
    | nil => simp [normalizeNewlines, hc]
    | cons c2 rest2 =>
      simp only [normalizeNewlines, if_neg hc]
      rw [ih hrest]

theorem sanitize_plain (s : String) (h : plainString s = true) :
    sanitize_string s = s := by
  simp only [plainString, Bool.and_eq_true, List.all_eq_true] at h
  obtain ⟨h1, h2⟩ := h
  have h2' : ∀ c ∈ s.data, c ≠ '\r' := by
    intro c hc
    simpa using h2 c hc
  have hn : normalizeNewlines s.data = s.data := normalizeNewlines_id s.data h2'
  apply String.ext
  rw [sanitize_string, hn]
  cases hd : s.data with
  | nil => rfl
  | cons c rest =>
    rw [hd] at h1
    have hc : c ∉ formulaChars := by simpa using h1
    simp [hc]

/-!
## Claim theorems
-/

/-- Claim C1 (code-bug evidence).  The claim states that for every
participant and round the generator produces exactly expected_count
TrialRecords numbered 1..expected_count.  On the code as configured this
fails: for a round-1 participant the candidate list has 12 tuples while
block 1 declares n = 10, so creating_session raises the ValueError of lines
167-169 and persists no TrialRecord at all (the code contradicts its own
comment on line 64, that n must match the stimulus count).  This theorem
evaluates the embedded code at that failing input. -/
theorem creating_session_round1_raises :
    creating_session STIMULI BLOCKS (fun _ l => l) [⟨1, 1, "sess", "part"⟩]
      = .error (.valueError 12 10) := rfl

/-- Claim C2 (code-bug evidence).  The claim states that every block's
candidate-tuple count (summed over both sides' word lists) equals its
declared n.  Evaluating the configuration shows that no block satisfies it:
the counts are 12, 16, 28, 28, 12, 28, 28 against the declared
10, 10, 20, 20, 10, 20, 20. -/
theorem blocks_declared_counts_all_mismatch :
    (BLOCKS.map fun b =>
        (Except.map List.length (blockStimuli STIMULI b), b.n))
      = [(.ok 12, 10), (.ok 16, 10), (.ok 28, 20), (.ok 28, 20),
         (.ok 12, 10), (.ok 28, 20), (.ok 28, 20)]
    ∧ (BLOCKS.all fun b =>
        (Except.map List.length (blockStimuli STIMULI b)).toOption
          != some b.n) = true :=
  ⟨rfl, rfl⟩

/-- Claim C3 counterexample.  The claim says the configuration-mismatch
error names the offending round; in fact the ValueError of lines 168-169
interpolates only the actual and expected counts, so two players in
different rounds (1 and 5) produce identical error values, from which the
offending round cannot be recovered. -/
theorem mismatch_error_does_not_name_round :
    creating_session STIMULI BLOCKS (fun _ l => l) [⟨1, 1, "s1", "pc1"⟩]
      = .error (.valueError 12 10)
    ∧ creating_session STIMULI BLOCKS (fun _ l => l) [⟨2, 5, "s1", "pc2"⟩]
      = .error (.valueError 12 10) :=
  ⟨rfl, rfl⟩

/-- Claim C3 as amended: for a session whose players' block lookups and
stimulus-table lookups succeed, creating_session raises an error exactly
when some player's candidate-tuple count differs from the block's declared
n; the raised error carries that round's actual and expected counts (though
not the round itself), and on an error no trial list is produced, i.e. the
bulk create of line 184 is never reached. -/
theorem mismatch_error_characterization (S : StimTable) (B : List Block)
    (shuffle : Player → List Stim → List Stim)
    (hshuf : ∀ q l, (shuffle q l).Perm l)
    (players : List Player)
    (hwf : ∀ p ∈ players, ∃ bd cand, B.get? (p.round_number - 1) = some bd
        ∧ blockStimuli S bd = .ok cand) :
    ((∃ e, creating_session S B shuffle players = .error e)
      ↔ ∃ p ∈ players, ∃ bd cand, B.get? (p.round_number - 1) = some bd
          ∧ blockStimuli S bd = .ok cand ∧ cand.length ≠ bd.n)
    ∧ (∀ e, creating_session S B shuffle players = .error e →
        (∃ p ∈ players, ∃ bd cand, B.get? (p.round_number - 1) = some bd
            ∧ blockStimuli S bd = .ok cand ∧ cand.length ≠ bd.n
            ∧ e = .valueError cand.length bd.n)
        ∧ ∀ ts, creating_session S B shuffle players ≠ .ok ts) := by
  constructor
  · constructor
    · rintro ⟨e, herr⟩
      obtain ⟨p, hp, bd, cand, hbd, hcand, hne, -⟩ :=
        creating_session_error_offender S B shuffle hshuf players hwf e herr
      exact ⟨p, hp, bd, cand, hbd, hcand, hne⟩
    · intro hoff
      exact creating_session_offender_error S B shuffle hshuf players hoff
  · intro e herr
    refine ⟨creating_session_error_offender S B shuffle hshuf players hwf
      e herr, ?_⟩
    intro ts hok
    rw [herr] at hok
    exact absurd hok (by simp)

/-- Witness for the amended claim C3, at the concrete failing session of one
round-1 player under the shipped configuration, with the identity shuffle. -/
theorem mismatch_error_characterization_witness :
    ((∃ e, creating_session STIMULI BLOCKS (fun _ l => l)
        [⟨1, 1, "s1", "pc1"⟩] = .error e)
      ↔ ∃ p ∈ [(⟨1, 1, "s1", "pc1"⟩ : Player)], ∃ bd cand,
          BLOCKS.get? (p.round_number - 1) = some bd
          ∧ blockStimuli STIMULI bd = .ok cand ∧ cand.length ≠ bd.n)
    ∧ (∀ e, creating_session STIMULI BLOCKS (fun _ l => l)
          [⟨1, 1, "s1", "pc1"⟩] = .error e →
        (∃ p ∈ [(⟨1, 1, "s1", "pc1"⟩ : Player)], ∃ bd cand,
            BLOCKS.get? (p.round_number - 1) = some bd
            ∧ blockStimuli STIMULI bd = .ok cand ∧ cand.length ≠ bd.n
            ∧ e = .valueError cand.length bd.n)
        ∧ ∀ ts, creating_session STIMULI BLOCKS (fun _ l => l)
            [⟨1, 1, "s1", "pc1"⟩] ≠ .ok ts) :=
  mismatch_error_characterization STIMULI BLOCKS (fun _ l => l)
    (fun _ _ => List.Perm.refl _) [⟨1, 1, "s1", "pc1"⟩]
    (fun p hp => by
      rw [List.mem_singleton] at hp
      subst hp
      exact blocks_lookup_wf 1 (by decide) (by decide))

/-- Claim C4: for any participant/round whose generation succeeds and any
shuffle that permutes its input (the contract of random.shuffle), the
multiset of (class, level, word) triples in the generated trial list — and
hence the multiset of stimulus words — is exactly the one derived from the
block's left+right selectors' word lists (the candidate list of lines
157-162): the shuffle only reorders, it never adds, drops or changes an
element.  List.Perm is multiset equality. -/
theorem generation_preserves_stimulus_multiset (S : StimTable)
    (B : List Block) (shuffle : Player → List Stim → List Stim)
    (hshuf : ∀ q l, (shuffle q l).Perm l)
    (p : Player) (ts : List Trial)
    (hok : playerTrialsFor S B shuffle p = .ok ts) :
    ∃ bd cand, B.get? (p.round_number - 1) = some bd
      ∧ blockStimuli S bd = .ok cand
      ∧ ((ts.map fun t => (t.stimulus_class, t.stimulus_level, t.stimulus)).Perm
          (cand.map fun sd => (sd.2.1, sd.2.2.1, sd.2.2.2)))
      ∧ (ts.map Trial.stimulus).Perm (cand.map fun sd => sd.2.2.2) := by
  obtain ⟨bd, cand, hbd, hcand, hlen, rfl⟩ :=
    playerTrialsFor_ok_elim S B shuffle p ts hok
  refine ⟨bd, cand, hbd, hcand, ?_, ?_⟩
  · rw [makeTrials_map_stim]
    exact (hshuf p cand).map _
  · rw [makeTrials_map_word]
    exact (hshuf p cand).map _

/-- Witness for claim C4 at a concrete count-consistent configuration (the
first block with n set to its actual candidate count 12) with the identity
shuffle. -/
theorem generation_preserves_stimulus_multiset_witness :
    ∃ bd cand, [testBlock].get? (testPlayer.round_number - 1) = some bd
      ∧ blockStimuli STIMULI bd = .ok cand
      ∧ ((testTrials.map fun t =>
            (t.stimulus_class, t.stimulus_level, t.stimulus)).Perm
          (cand.map fun sd => (sd.2.1, sd.2.2.1, sd.2.2.2)))
      ∧ (testTrials.map Trial.stimulus).Perm (cand.map fun sd => sd.2.2.2) :=
  generation_preserves_stimulus_multiset STIMULI [testBlock] (fun _ l => l)
    (fun _ _ => List.Perm.refl _) testPlayer testTrials rfl

/-- Claim C5 counterexample.  The claim says every value of a data row has
passed through CSV sanitization; in fact lines 239-240 sanitize only the
eight trial fields, not the session and participant codes.  For a stored
trial whose session code is the formula-like string of evilPlayer, the
exported data row carries that code verbatim, although sanitization would
have escaped it (second conjunct). -/
theorem export_session_code_not_sanitized :
    (custom_export [evilTrial])[1]?
      = some [CellValue.str "=2+5", CellValue.str "pc1",
              .int 1, .int 1, .str "alegría", .str "atributos",
              .str "positivas", .str "E", .bool true, .int 812]
    ∧ sanitize_for_csv (CellValue.str "=2+5")
        = CellValue.str
            (String.mk (escMark :: '=' :: '2' :: '+' :: '5' :: [])) :=
  ⟨rfl, rfl⟩

/-- Claim C5 as amended: every data row of custom_export is the session code
and participant code (as stored, not sanitized) followed by the eight trial
fields each passed through sanitize_for_csv, and sanitization leaves plain
text — no leading formula character, no carriage return — unchanged. -/
theorem export_rows_structure (trials : List Trial) :
    ((custom_export trials).drop 1
      = trials.map fun t =>
          [CellValue.str t.player.session_code,
           CellValue.str t.player.participant_code]
            ++ (trialFieldValues t).map sanitize_for_csv)
    ∧ ∀ s : String, plainString s = true →
        sanitize_for_csv (CellValue.str s) = CellValue.str s := by
  constructor
  · have hrow : exportRow = fun t =>
        [CellValue.str t.player.session_code,
         CellValue.str t.player.participant_code]
          ++ (trialFieldValues t).map sanitize_for_csv := by
      funext t
      rw [exportRow, trialFieldValues, List.map_map]
      rfl
    show trials.map exportRow = _
    rw [hrow]
  · intro s hs
    show CellValue.str (sanitize_string s) = CellValue.str s
    rw [sanitize_plain s hs]

/-- Witness for the amended claim C5: the empty trial table, and the plain
word of the spec's export scenario, which sanitization leaves unchanged. -/
theorem export_rows_structure_witness :
    ((custom_export []).drop 1
      = ([] : List Trial).map fun t =>
          [CellValue.str t.player.session_code,
           CellValue.str t.player.participant_code]
            ++ (trialFieldValues t).map sanitize_for_csv)
    ∧ sanitize_for_csv (CellValue.str "alegría") = CellValue.str "alegría" :=
  ⟨(export_rows_structure []).1,
   (export_rows_structure []).2 "alegría" (by decide)⟩

/-- Claim C6: the first row custom_export yields is exactly the ten-column
header of line 237, before any data row (the data rows follow it, one per
stored record). -/
theorem export_header_first (trials : List Trial) :
    custom_export trials
      = (["session", "participant_code", "block", "trial", "stimulus",
          "stimulus_class", "stimulus_level", "response_key",
          "response_correct", "response_time_ms"].map CellValue.str)
        :: trials.map exportRow := rfl

/-- Claim C7: whenever generation succeeds for a participant, the produced
trial list enumerates some shuffled stimulus list: the record at 0-based
position i has trial = i + 1 (so 1-based positions), the word, class and
level copied unchanged from the tuple at that position, block equal to the
participant's round number, the player reference set to that participant,
and all three response fields unset. -/
theorem trials_enumerate_shuffled_stimuli (S : StimTable) (B : List Block)
    (shuffle : Player → List Stim → List Stim)
    (p : Player) (ts : List Trial)
    (hok : playerTrialsFor S B shuffle p = .ok ts) :
    ∃ shuffled : List Stim, ts = makeTrials p.round_number p shuffled
      ∧ ∀ i : Nat, ts[i]? = shuffled[i]?.map fun sd =>
          (⟨p.round_number, i + 1, sd.2.2.2, sd.2.1, sd.2.2.1,
            none, none, none, p⟩ : Trial) := by
  obtain ⟨bd, cand, hbd, hcand, hlen, rfl⟩ :=
    playerTrialsFor_ok_elim S B shuffle p ts hok
  exact ⟨shuffle p cand, rfl, fun i => makeTrials_getElem? _ _ _ i⟩

/-- Witness for claim C7 at the concrete count-consistent configuration. -/
theorem trials_enumerate_shuffled_stimuli_witness :
    ∃ shuffled : List Stim,
      testTrials = makeTrials testPlayer.round_number testPlayer shuffled
      ∧ ∀ i : Nat, testTrials[i]? = shuffled[i]?.map fun sd =>
          (⟨testPlayer.round_number, i + 1, sd.2.2.2, sd.2.1, sd.2.2.1,
            none, none, none, testPlayer⟩ : Trial) :=
  trials_enumerate_shuffled_stimuli STIMULI [testBlock] (fun _ l => l)
    testPlayer testTrials rfl

/-- Claim C8: custom_export is a read-only, deterministic projection of the
stored records: running it leaves the database unchanged, and running it
again on the resulting state (no intervening writes) yields the identical
sequence of rows.  The source body contains no write, so its embedding
returns the state untouched. -/
theorem export_readonly_deterministic (db : Database) :
    (custom_export_run db).2 = db
    ∧ (custom_export_run ((custom_export_run db).2)).1
        = (custom_export_run db).1 :=
  ⟨rfl, rfl⟩

/-- Claim C9: for players whose round number lies between 1 and
Constants.num_rounds (= len(BLOCKS)), the BLOCKS[round_number - 1] lookup of
lines 153-154 always succeeds, and the only error creating_session can then
raise is the declared count-mismatch ValueError — never an IndexError or a
KeyError. -/
theorem round_lookup_safe (shuffle : Player → List Stim → List Stim)
    (hshuf : ∀ q l, (shuffle q l).Perm l)
    (players : List Player)
    (hr : ∀ p ∈ players,
      1 ≤ p.round_number ∧ p.round_number ≤ Constants.num_rounds) :
    (∀ p ∈ players, ∃ bd, BLOCKS.get? (p.round_number - 1) = some bd)
    ∧ ∀ e, creating_session STIMULI BLOCKS shuffle players = .error e →
        ∃ a b, e = GenError.valueError a b := by
  have hwf : ∀ p ∈ players, ∃ bd cand,
      BLOCKS.get? (p.round_number - 1) = some bd
        ∧ blockStimuli STIMULI bd = .ok cand := by
    intro p hp
    exact blocks_lookup_wf p.round_number (hr p hp).1 (hr p hp).2
  constructor
  · intro p hp
    obtain ⟨bd, cand, hbd, -⟩ := hwf p hp
    exact ⟨bd, hbd⟩
  · intro e herr
    obtain ⟨p, hp, bd, cand, hbd, hcand, hne, he⟩ :=
      creating_session_error_offender STIMULI BLOCKS shuffle hshuf players
        hwf e herr
    exact ⟨cand.length, bd.n, he⟩

/-- Witness for claim C9 at a one-player round-1 session with the identity
shuffle (whose generation indeed fails, with a ValueError). -/
theorem round_lookup_safe_witness :
    (∀ p ∈ [(⟨1, 1, "s", "pc"⟩ : Player)],
      ∃ bd, BLOCKS.get? (p.round_number - 1) = some bd)
    ∧ ∀ e, creating_session STIMULI BLOCKS (fun _ l => l)
          [⟨1, 1, "s", "pc"⟩] = .error e →
        ∃ a b, e = GenError.valueError a b :=
  round_lookup_safe (fun _ l => l) (fun _ _ => List.Perm.refl _)
    [⟨1, 1, "s", "pc"⟩] (by decide)

/-- Claim C10: in any successfully generated batch, every trial's
(class, level) pair is one of its owner's block selectors (left or right
side) and its word belongs to STIMULI[class][level]; moreover, per player,
the generated (class, level, word) triples are a permutation of the block's
candidate triples, so each word of each selected word list gives rise to
exactly one record for that participant/round. -/
theorem generated_trials_respect_selectors (S : StimTable) (B : List Block)
    (shuffle : Player → List Stim → List Stim)
    (hshuf : ∀ q l, (shuffle q l).Perm l)
    (players : List Player) (ts : List Trial)
    (hok : creating_session S B shuffle players = .ok ts) :
    (∀ t ∈ ts, ∃ p ∈ players, t.player = p
      ∧ ∃ bd, B.get? (p.round_number - 1) = some bd
        ∧ (t.stimulus_class, t.stimulus_level) ∈ bd.izquierda ++ bd.derecha
        ∧ ∃ ws, stimWords S t.stimulus_class t.stimulus_level = some ws
            ∧ t.stimulus ∈ ws)
    ∧ ∀ p ∈ players, ∃ bd cand tsp,
        B.get? (p.round_number - 1) = some bd
        ∧ blockStimuli S bd = .ok cand
        ∧ playerTrialsFor S B shuffle p = .ok tsp
        ∧ (tsp.map fun t =>
            (t.stimulus_class, t.stimulus_level, t.stimulus)).Perm
            (cand.map fun sd => (sd.2.1, sd.2.2.1, sd.2.2.2)) := by
  induction players generalizing ts with
  | nil =>
    obtain rfl : ([] : List Trial) = ts := by
      simpa [creating_session] using hok
    exact ⟨fun t ht => absurd ht (by simp), fun p hp => absurd hp (by simp)⟩
  | cons p ps ih =>
    obtain ⟨pt, rest, hp, hrest, rfl⟩ :=
      creating_session_ok_cons S B shuffle p ps ts hok
    obtain ⟨bd, cand, hbd, hcand, hlen, hpt⟩ :=
      playerTrialsFor_ok_elim S B shuffle p pt hp
    obtain ⟨ih1, ih2⟩ := ih rest hrest
    constructor
    · intro t ht
      rcases List.mem_append.mp ht with hmem | hmem
      · rw [hpt] at hmem
        obtain ⟨sd, hsd, hcls, hlvl, hstim, hpl, hblk⟩ :=
          makeTrials_mem p.round_number p (shuffle p cand) t hmem
        have hsd2 : sd ∈ cand := ((hshuf p cand).mem_iff).mp hsd
        obtain ⟨hsel, ws, hws, hwmem⟩ :=
          blockStimuli_mem S bd cand hcand sd hsd2
        refine ⟨p, List.mem_cons_self p ps, hpl, bd, hbd, ?_, ws, ?_, ?_⟩
        · rw [hcls, hlvl]; exact hsel
        · rw [hcls, hlvl]; exact hws
        · rw [hstim]; exact hwmem
      · obtain ⟨q, hq, hq2⟩ := ih1 t hmem
        exact ⟨q, List.mem_cons_of_mem p hq, hq2⟩
    · intro q hq
      rcases List.mem_cons.mp hq with rfl | hqps
      · refine ⟨bd, cand, pt, hbd, hcand, hp, ?_⟩
        rw [hpt, makeTrials_map_stim]
        exact (hshuf q cand).map _
      · exact ih2 q hqps

/-- Witness for claim C10 at the concrete count-consistent one-player
session. -/
theorem generated_trials_respect_selectors_witness :
    (∀ t ∈ testSession, ∃ p ∈ [testPlayer], t.player = p
      ∧ ∃ bd, [testBlock].get? (p.round_number - 1) = some bd
        ∧ (t.stimulus_class, t.stimulus_level) ∈ bd.izquierda ++ bd.derecha
        ∧ ∃ ws, stimWords STIMULI t.stimulus_class t.stimulus_level = some ws
            ∧ t.stimulus ∈ ws)
    ∧ ∀ p ∈ [testPlayer], ∃ bd cand tsp,
        [testBlock].get? (p.round_number - 1) = some bd
        ∧ blockStimuli STIMULI bd = .ok cand
        ∧ playerTrialsFor STIMULI [testBlock] (fun _ l => l) p = .ok tsp
        ∧ (tsp.map fun t =>
            (t.stimulus_class, t.stimulus_level, t.stimulus)).Perm
            (cand.map fun sd => (sd.2.1, sd.2.2.1, sd.2.2.2)) :=
  generated_trials_respect_selectors STIMULI [testBlock] (fun _ l => l)
    (fun _ _ => List.Perm.refl _) [testPlayer] testSession rfl
